import Mathlib

/-!
Verification of the EIA diesel fuel rate fetcher.

Shallow embedding of the two Python sources
`fetch_fuel_rates.py` (root variant) and `FetchFuelRates/fetch_fuel_rates.py`
(the `_v2` definitions), plus the timer entry point `FetchFuelRates/__init__.py`.

Python `datetime.date` values are embedded as a `Date` structure of numeric
fields (year, month, day, proleptic Gregorian, years 1..9999 as in CPython).
`timedelta` subtraction/addition by `n` days is embedded as `n`-fold
iteration of the calendar predecessor/successor, which agrees with CPython's
ordinal arithmetic on valid dates; `toOrdinal` is CPython's
`date.toordinal` (days since 0001-01-01 = ordinal 1).
-/

namespace EIA

/-- A calendar date, as CPython's `datetime.date` (year month day fields). -/
structure Date where
  year : Nat
  month : Nat
  day : Nat
deriving DecidableEq

/-- Gregorian leap-year rule, as CPython `calendar.isleap`. -/
def isLeap (y : Nat) : Prop := (y % 4 = 0 ∧ ¬ y % 100 = 0) ∨ y % 400 = 0

instance (y : Nat) : Decidable (isLeap y) :=
  inferInstanceAs (Decidable ((y % 4 = 0 ∧ ¬ y % 100 = 0) ∨ y % 400 = 0))

/-- Number of days in a month, as `calendar.monthrange(y, m)[1]`. -/
def daysInMonth (y m : Nat) : Nat :=
  if m = 2 then (if isLeap y then 29 else 28)
  else if m = 4 ∨ m = 6 ∨ m = 9 ∨ m = 11 then 30
  else 31

/-- The dates representable by CPython `datetime.date` (MINYEAR = 1, MAXYEAR = 9999). -/
def validDate (d : Date) : Prop :=
  1 ≤ d.year ∧ d.year ≤ 9999 ∧ 1 ≤ d.month ∧ d.month ≤ 12 ∧
  1 ≤ d.day ∧ d.day ≤ daysInMonth d.year d.month

instance (d : Date) : Decidable (validDate d) :=
  inferInstanceAs (Decidable (1 ≤ d.year ∧ d.year ≤ 9999 ∧ 1 ≤ d.month ∧ d.month ≤ 12 ∧
    1 ≤ d.day ∧ d.day ≤ daysInMonth d.year d.month))

/-- Python date comparison `a < b` (lexicographic on (year, month, day)). -/
def dltP (a b : Date) : Prop :=
  a.year < b.year ∨ (a.year = b.year ∧
    (a.month < b.month ∨ (a.month = b.month ∧ a.day < b.day)))

instance (a b : Date) : Decidable (dltP a b) :=
  inferInstanceAs (Decidable (a.year < b.year ∨ (a.year = b.year ∧
    (a.month < b.month ∨ (a.month = b.month ∧ a.day < b.day)))))

/-- Python date comparison `a <= b`. -/
def dleP (a b : Date) : Prop := dltP a b ∨ a = b

instance (a b : Date) : Decidable (dleP a b) :=
  inferInstanceAs (Decidable (dltP a b ∨ a = b))

/-- Calendar predecessor: the day before `d` (for valid `d` past 0001-01-01). -/
def predDate (d : Date) : Date :=
  if 2 ≤ d.day then ⟨d.year, d.month, d.day - 1⟩
  else if 2 ≤ d.month then ⟨d.year, d.month - 1, daysInMonth d.year (d.month - 1)⟩
  else ⟨d.year - 1, 12, 31⟩

/-- Calendar successor: the day after `d`. -/
def succDate (d : Date) : Date :=
  if d.day < daysInMonth d.year d.month then ⟨d.year, d.month, d.day + 1⟩
  else if d.month < 12 then ⟨d.year, d.month + 1, 1⟩
  else ⟨d.year + 1, 1, 1⟩

/-- `d - timedelta(days = n)`, as iterated calendar predecessor. -/
def subDays (d : Date) : Nat → Date
  | 0 => d
  | n + 1 => predDate (subDays d n)

/-- `d + timedelta(days = n)`, as iterated calendar successor. -/
def addDays (d : Date) : Nat → Date
  | 0 => d
  | n + 1 => succDate (addDays d n)

/-- Days between year 1 and year `y` (CPython `_days_before_year`). -/
def daysBeforeYear (y : Nat) : Nat :=
  365 * (y - 1) + (y - 1) / 4 - (y - 1) / 100 + (y - 1) / 400

/-- Days in year `y` before month `m` (CPython `_days_before_month`). -/
def daysBeforeMonth (y m : Nat) : Nat :=
  (if m ≤ 1 then 0 else if m = 2 then 31 else if m = 3 then 59
   else if m = 4 then 90 else if m = 5 then 120 else if m = 6 then 151
   else if m = 7 then 181 else if m = 8 then 212 else if m = 9 then 243
   else if m = 10 then 273 else if m = 11 then 304 else 334) +
  (if 3 ≤ m ∧ isLeap y then 1 else 0)

/-- CPython `date.toordinal`: 0001-01-01 is ordinal 1. -/
def toOrdinal (d : Date) : Nat :=
  daysBeforeYear d.year + daysBeforeMonth d.year d.month + d.day

/-- CPython `date.weekday`: 0 = Monday, ..., 6 = Sunday. -/
def weekday (d : Date) : Nat := (toOrdinal d + 6) % 7

/-! ## Period tokens and `strptime`

Period tokens and the `--start_date` argument are strings.  CPython
`datetime.strptime` with the fixed formats `%Y%m%d`, `%Y%m`, `%Y-%m-%d`,
`%Y-%m` is embedded on the zero-padded encodings those formats canonically
denote (four year digits, two month/day digits); an input that does not
match the pattern, or whose fields do not form a representable date,
yields `none` (in Python: `ValueError`).
-/

/-- The digit character of `n % 10`. -/
def dChar (n : Nat) : Char := Char.ofNat (48 + n % 10)

/-- Numeric value of a digit character. -/
def dVal (c : Char) : Nat := c.toNat - 48

/-- Two-digit zero-padded encoding of `n` (for `n ≤ 99`). -/
def twoDigits (n : Nat) : List Char := [dChar (n / 10), dChar n]

/-- Four-digit zero-padded encoding of `n` (for `n ≤ 9999`). -/
def fourDigits (n : Nat) : List Char :=
  [dChar (n / 1000), dChar (n / 100), dChar (n / 10), dChar n]

/-- Parse two digit characters as a two-digit number. -/
def parse2 (a b : Char) : Option Nat :=
  if a.isDigit && b.isDigit then some (10 * dVal a + dVal b) else none

/-- Parse four digit characters as a four-digit number. -/
def parse4 (a b c d : Char) : Option Nat :=
  if a.isDigit && b.isDigit && c.isDigit && d.isDigit then
    some (1000 * dVal a + 100 * dVal b + 10 * dVal c + dVal d)
  else none

/-- The `datetime` constructor: a date only if representable. -/
def mkValidDate (y m d : Nat) : Option Date :=
  if validDate ⟨y, m, d⟩ then some ⟨y, m, d⟩ else none

/-- `datetime.strptime(s, "%Y%m%d").date()`. -/
def strpYmd (s : String) : Option Date :=
  match s.data with
  | [y1, y2, y3, y4, m1, m2, d1, d2] =>
    match parse4 y1 y2 y3 y4, parse2 m1 m2, parse2 d1 d2 with
    | some y, some m, some d => mkValidDate y m d
    | _, _, _ => none
  | _ => none

/-- `datetime.strptime(s, "%Y%m").date()` (day defaults to 1). -/
def strpYm (s : String) : Option Date :=
  match s.data with
  | [y1, y2, y3, y4, m1, m2] =>
    match parse4 y1 y2 y3 y4, parse2 m1 m2 with
    | some y, some m => mkValidDate y m 1
    | _, _ => none
  | _ => none

/-- `datetime.strptime(s, "%Y-%m-%d").date()`. -/
def strpYmdH (s : String) : Option Date :=
  match s.data with
  | [y1, y2, y3, y4, h1, m1, m2, h2, d1, d2] =>
    if h1 = '-' ∧ h2 = '-' then
      match parse4 y1 y2 y3 y4, parse2 m1 m2, parse2 d1 d2 with
      | some y, some m, some d => mkValidDate y m d
      | _, _, _ => none
    else none
  | _ => none

/-- `datetime.strptime(s, "%Y-%m").date()` (day defaults to 1). -/
def strpYmH (s : String) : Option Date :=
  match s.data with
  | [y1, y2, y3, y4, h1, m1, m2] =>
    if h1 = '-' then
      match parse4 y1 y2 y3 y4, parse2 m1 m2 with
      | some y, some m => mkValidDate y m 1
      | _, _ => none
    else none
  | _ => none

/-- Reporting cadence of a series (keys of the `SERIES` dict). -/
inductive Span
  | Weekly
  | Monthly
deriving DecidableEq

/-- The period-parsing step of `main`'s record loop
(`fetch_fuel_rates.py` lines 99-109): branch on presence of `"-"`,
then `strptime` with the span's format. -/
def parsePeriod (sp : Span) (s : String) : Option Date :=
  if s.data.contains '-' then
    match sp with
    | .Weekly => strpYmdH s
    | .Monthly => strpYmH s
  else
    match sp with
    | .Weekly => strpYmd s
    | .Monthly => strpYm s

/-- Failure modes of the `start_date` threshold computation in `main`. -/
inductive StartErr
  | invalidStartDate
  | malformedStart
deriving DecidableEq

/-- The threshold computation of `main` (`fetch_fuel_rates.py` lines 75-82):
an 8-character token is parsed as `%Y%m%d`, a 6-character token as `%Y%m`
then normalized to day 1, anything else raises
`ValueError("start_date must be YYYYMMDD ...")` (`invalidStartDate`). -/
def parseStartDate (s : String) : Except StartErr Date :=
  if s.length = 8 then
    match strpYmd s with
    | some d => .ok d
    | none => .error .malformedStart
  else if s.length = 6 then
    match strpYm s with
    | some d => .ok ⟨d.year, d.month, 1⟩
    | none => .error .malformedStart
  else .error .invalidStartDate

/-- Number of digit characters of a token after stripping separators
(the reading of "6 or 8 digits after stripping separators" in the spec). -/
def digitCount (s : String) : Nat := (s.data.filter Char.isDigit).length

/-- Compact Weekly token `YYYYMMDD` of a date. -/
def formatCompactDay (d : Date) : String :=
  ⟨fourDigits d.year ++ twoDigits d.month ++ twoDigits d.day⟩

/-- Hyphenated Weekly token `YYYY-MM-DD` of a date; also `date.isoformat()`. -/
def formatHyphenDay (d : Date) : String :=
  ⟨fourDigits d.year ++ ['-'] ++ twoDigits d.month ++ ['-'] ++ twoDigits d.day⟩

/-- Compact Monthly token `YYYYMM` of a date. -/
def formatCompactMonth (d : Date) : String :=
  ⟨fourDigits d.year ++ twoDigits d.month⟩

/-- Hyphenated Monthly token `YYYY-MM` of a date. -/
def formatHyphenMonth (d : Date) : String :=
  ⟨fourDigits d.year ++ ['-'] ++ twoDigits d.month⟩

/-- `date.isoformat()`. -/
def isoformat (d : Date) : String := formatHyphenDay d

deriving instance DecidableEq for Except

/-! ## Records and the window calculator -/

/-- A normalized record: the dict appended to `all_records`, also a row of
`dbo.EIA_DIESEL_FUEL_RATES`. -/
structure Row where
  eff_date : Date
  span : Span
  rate : Rat
  begin_dt : Date
  end_dt : Date
deriving DecidableEq

/-- `compute_begin_end` of the root `fetch_fuel_rates.py` (lines 39-51):
Monthly gives the first and last day of the month; Weekly gives
`last = eff_date - 2 days`, `first = last - 6 days`. -/
def compute_begin_end (eff_date : Date) (span : Span) : Date × Date :=
  match span with
  | .Monthly =>
    (⟨eff_date.year, eff_date.month, 1⟩,
     ⟨eff_date.year, eff_date.month, daysInMonth eff_date.year eff_date.month⟩)
  | .Weekly =>
    let last := subDays eff_date 2
    let first := subDays last 6
    (first, last)

/-- `compute_begin_end` of `FetchFuelRates/fetch_fuel_rates.py` (lines 36-44):
Monthly as in the root variant; Weekly gives `first = eff_date - 1 day`,
`last = first + 6 days`. -/
def compute_begin_end_v2 (eff_date : Date) (span : Span) : Date × Date :=
  match span with
  | .Monthly =>
    (⟨eff_date.year, eff_date.month, 1⟩,
     ⟨eff_date.year, eff_date.month, daysInMonth eff_date.year eff_date.month⟩)
  | .Weekly =>
    let first := subDays eff_date 1
    let last := addDays first 6
    (first, last)

/-- The record built in `main`'s loop (root variant): effective date, span,
rate, and the window from `compute_begin_end`. -/
def mkRow (eff : Date) (sp : Span) (price : Rat) : Row :=
  ⟨eff, sp, price, (compute_begin_end eff sp).1, (compute_begin_end eff sp).2⟩

/-! ## The record loop, series loop and `main` (root `fetch_fuel_rates.py`) -/

/-- An unparseable period token: the `ValueError` raised by `strptime` in
`main`'s record loop, which no handler catches. -/
structure PeriodErr where
  span : Span
  token : String
deriving DecidableEq

/-- A non-success HTTP outcome of `get_eia_data` (`requests.HTTPError`). -/
structure HTTPErr where
  status : Nat
deriving DecidableEq

/-- `main`'s inner loop over one series' `(period, price)` pairs
(root variant, lines 93-123): a missing price skips the record with a log;
a period token `strptime` cannot parse raises (uncaught, so the whole run
aborts: `.error`); a parsed record outside
`threshold_date ≤ eff ≤ today` is skipped; a kept record is normalized
with `compute_begin_end` and collected in order. -/
def processSeries (sp : Span) (threshold today : Date) :
    List (String × Option Rat) → Except PeriodErr (List Row)
  | [] => .ok []
  | (period, price) :: rest =>
    match price with
    | none => processSeries sp threshold today rest
    | some p =>
      match parsePeriod sp period with
      | none => .error ⟨sp, period⟩
      | some eff =>
        if dltP eff threshold ∨ dltP today eff then processSeries sp threshold today rest
        else
          match processSeries sp threshold today rest with
          | .error e => .error e
          | .ok rs => .ok (mkRow eff sp p :: rs)

/-- `main`'s loop over `SERIES` (iteration order Weekly, Monthly): a fetch
failure for a series is caught (`except requests.HTTPError`), logged and
skipped with `continue`; the records of the remaining series are
concatenated. -/
def collectRun (fetch : Span → Except HTTPErr (List (String × Option Rat)))
    (threshold today : Date) : Except PeriodErr (List Row) :=
  match fetch .Weekly with
  | .error _ =>
    match fetch .Monthly with
    | .error _ => .ok []
    | .ok rawM => processSeries .Monthly threshold today rawM
  | .ok rawW =>
    match processSeries .Weekly threshold today rawW with
    | .error e => .error e
    | .ok rsW =>
      match fetch .Monthly with
      | .error _ => .ok rsW
      | .ok rawM =>
        match processSeries .Monthly threshold today rawM with
        | .error e => .error e
        | .ok rsM => .ok (rsW ++ rsM)

/-- An uncaught exception that aborts `main`. -/
inductive MainErr
  | startErr (e : StartErr)
  | periodErr (e : PeriodErr)
deriving DecidableEq

/-- The observable outcome of a completed `main` run: what was printed in
dry-run mode, the rows handed to `upsert_records`, and whether a database
connection was opened. -/
structure RunOutcome where
  printed : Option (List Row)
  dbWrites : List Row
  connected : Bool
deriving DecidableEq

/-- `main(start_date, dry_run)` of the root variant (lines 70-146):
compute the threshold from `start_date` (aborting before any fetch on a bad
token), run both series, then either print the records (dry run: no
connection, no writes) or connect and upsert every collected record. -/
def mainModel (fetch : Span → Except HTTPErr (List (String × Option Rat)))
    (start_date : String) (dry_run : Bool) (today : Date) : Except MainErr RunOutcome :=
  match parseStartDate start_date with
  | .error e => .error (.startErr e)
  | .ok threshold =>
    match collectRun fetch threshold today with
    | .error e => .error (.periodErr e)
    | .ok recs =>
      if dry_run then .ok ⟨some recs, [], false⟩
      else .ok ⟨none, recs, true⟩

/-! ## The upsert sink

The destination table, modelled as the list of its rows in insertion
order.  The `MERGE ... WHEN NOT MATCHED THEN INSERT` statement of
`upsert_records` inserts a row only when no row with the same
(`EFFECTIVE_DT`, `TIME_SPAN`) key exists.
-/

/-- The dedup key (`EFFECTIVE_DT`, `TIME_SPAN`). -/
def rowKey (r : Row) : Date × Span := (r.eff_date, r.span)

/-- Whether the table holds a row with key `k`. -/
def containsKey (t : List Row) (k : Date × Span) : Bool :=
  t.any fun r => decide (rowKey r = k)

/-- The first (for a deduplicated table: the only) row with key `k`. -/
def lookupKey (t : List Row) (k : Date × Span) : Option Row :=
  t.find? fun r => decide (rowKey r = k)

/-- How many rows of the table have key `k`. -/
def countKey (t : List Row) (k : Date × Span) : Nat :=
  (t.filter fun r => decide (rowKey r = k)).length

/-- One `cursor.execute(merge_sql, ...)`: insert `r` only when its key is
not yet present. -/
def upsertOne (t : List Row) (r : Row) : List Row :=
  if containsKey t (rowKey r) then t else t ++ [r]

/-- `upsert_records(cursor, records)`: one MERGE per record, in order. -/
def upsert_records (t : List Row) (records : List Row) : List Row :=
  records.foldl upsertOne t

/-! ## The timer entry point (`FetchFuelRates/__init__.py`) -/

/-- `prev_monday` of `get_prev_week_and_month`:
`today - timedelta(days = today.weekday() + 7)`. -/
def prevMondayDate (today : Date) : Date := subDays today (weekday today + 7)

/-- The date whose ISO form `get_prev_week_and_month` returns as
`monthly_start`: day 1 of the month of
`today.replace(day=1) - timedelta(days=1)`. -/
def firstLastMonthDate (today : Date) : Date :=
  let last_month := predDate ⟨today.year, today.month, 1⟩
  ⟨last_month.year, last_month.month, 1⟩

/-- `get_prev_week_and_month()` (lines 6-18): the pair
(`weekly_start`, `monthly_start`) of ISO date strings. -/
def get_prev_week_and_month (today : Date) : String × String :=
  (isoformat (prevMondayDate today), isoformat (firstLastMonthDate today))

/-- The timer `main` (lines 20-31): with an override it invokes the
pipeline once on the override token with `dry_run = true`; otherwise it
invokes the pipeline on `weekly_start` then `monthly_start`, both with
`dry_run = false`.  Modelled as the list of `(start_date, dry_run)`
invocations of `fetch_main`. -/
def scheduledInvocations (override : Option String) (today : Date) : List (String × Bool) :=
  match override with
  | some s => [(s, true)]
  | none =>
    let wm := get_prev_week_and_month today
    [(wm.1, false), (wm.2, false)]

/-- Modelled from the spec (claim C2 comparison): the first day of the
month `today` belongs to — what the spec calls the
"first-of-current-month token". -/
def specCurrentMonthFirst (today : Date) : Date := ⟨today.year, today.month, 1⟩

/-- The first day of the month preceding `today`'s month (the amended
reading of `monthly_start`). -/
def specPrevMonthFirst (today : Date) : Date :=
  if 2 ≤ today.month then ⟨today.year, today.month - 1, 1⟩
  else ⟨today.year - 1, 12, 1⟩

/-- A concrete fetch outcome: the Weekly series carries a malformed token
followed by a good record; the Monthly fetch fails. -/
def cxFetchWeeklyBad : Span → Except HTTPErr (List (String × Option Rat)) :=
  fun sp =>
    match sp with
    | .Weekly => .ok [("banana", some 3), ("20240610", some 4)]
    | .Monthly => .error ⟨500⟩

/-- A concrete fetch outcome where the Weekly series fails with HTTP 500
and the Monthly series succeeds with one June 2024 record. -/
def cxFetchWeeklyFails : Span → Except HTTPErr (List (String × Option Rat)) :=
  fun sp =>
    match sp with
    | .Weekly => .error ⟨500⟩
    | .Monthly => .ok [("202406", some 3)]

/-- A concrete fetch outcome where the Weekly series succeeds with one
record (Monday 2024-06-10) and the Monthly series fails with HTTP 503. -/
def cxFetchMonthlyFails : Span → Except HTTPErr (List (String × Option Rat)) :=
  fun sp =>
    match sp with
    | .Weekly => .ok [("20240610", some 4)]
    | .Monthly => .error ⟨503⟩

/-! ## Lemmas -/

lemma daysInMonth_bounds (y m : Nat) : 28 ≤ daysInMonth y m ∧ daysInMonth y m ≤ 31 := by
  unfold daysInMonth
  split_ifs <;> omega

lemma daysBeforeMonth_one (y : Nat) : daysBeforeMonth y 1 = 0 := by
  norm_num [daysBeforeMonth]

lemma daysBeforeMonth_twelve (y : Nat) :
    daysBeforeMonth y 12 = 334 + (if isLeap y then 1 else 0) := by
  norm_num [daysBeforeMonth]

lemma daysInMonth_twelve (y : Nat) : daysInMonth y 12 = 31 := by
  norm_num [daysInMonth]

lemma daysBeforeMonth_succ (y m : Nat) (h1 : 1 ≤ m) (h2 : m ≤ 11) :
    daysBeforeMonth y m + daysInMonth y m = daysBeforeMonth y (m + 1) := by
  interval_cases m <;> by_cases hL : isLeap y <;>
    norm_num [daysBeforeMonth, daysInMonth, hL]

lemma daysBeforeYear_succ (y : Nat) (h : 1 ≤ y) :
    daysBeforeYear (y + 1) = daysBeforeYear y + 365 + (if isLeap y then 1 else 0) := by
  obtain ⟨a, rfl⟩ : ∃ a, y = a + 1 := ⟨y - 1, by omega⟩
  simp only [daysBeforeYear, isLeap, Nat.add_sub_cancel]
  rw [Nat.succ_div a 4, Nat.succ_div a 100, Nat.succ_div a 400]
  split_ifs <;> omega

lemma predDate_spec (d : Date) (hv : validDate d) (h2 : 2 ≤ toOrdinal d) :
    validDate (predDate d) ∧ toOrdinal (predDate d) + 1 = toOrdinal d ∧
      (predDate d).year ≤ d.year := by
  obtain ⟨y, m, day⟩ := d
  obtain ⟨hy1, hy2, hm1, hm2, hd1, hd2⟩ := hv
  have hy1b : 1 ≤ y := hy1
  have hy2b : y ≤ 9999 := hy2
  have hm1b : 1 ≤ m := hm1
  have hm2b : m ≤ 12 := hm2
  have hd1b : 1 ≤ day := hd1
  have hd2b : day ≤ daysInMonth y m := hd2
  have h2b : 2 ≤ daysBeforeYear y + daysBeforeMonth y m + day := h2
  unfold predDate
  split_ifs with hday hmon
  · have hdayb : 2 ≤ day := hday
    simp only [validDate, toOrdinal]
    omega
  · have hdayb : ¬ 2 ≤ day := hday
    have hmonb : 2 ≤ m := hmon
    have hmb := daysInMonth_bounds y (m - 1)
    have hs := daysBeforeMonth_succ y (m - 1) (by omega) (by omega)
    rw [show m - 1 + 1 = m from by omega] at hs
    simp only [validDate, toOrdinal]
    omega
  · have hdayb : ¬ 2 ≤ day := hday
    have hmonb : ¬ 2 ≤ m := hmon
    have hdby : daysBeforeYear y = 365 * (y - 1) + (y - 1) / 4 - (y - 1) / 100 + (y - 1) / 400 :=
      rfl
    have hm1e : m = 1 := by omega
    subst hm1e
    have h0 : daysBeforeMonth y 1 = 0 := daysBeforeMonth_one y
    have hy3 : 2 ≤ y := by omega
    have hys := daysBeforeYear_succ (y - 1) (by omega)
    rw [show y - 1 + 1 = y from by omega] at hys
    have h12 : daysBeforeMonth (y - 1) 12 = 334 + (if isLeap (y - 1) then 1 else 0) :=
      daysBeforeMonth_twelve _
    have h31 : daysInMonth (y - 1) 12 = 31 := daysInMonth_twelve _
    simp only [validDate, toOrdinal]
    by_cases hL : isLeap (y - 1)
    · rw [if_pos hL] at hys h12; omega
    · rw [if_neg hL] at hys h12; omega

lemma succDate_spec (d : Date) (hv : validDate d) (hmax : d ≠ ⟨9999, 12, 31⟩) :
    validDate (succDate d) ∧ toOrdinal (succDate d) = toOrdinal d + 1 ∧
      (succDate d).year ≤ d.year + 1 := by
  obtain ⟨y, m, day⟩ := d
  obtain ⟨hy1, hy2, hm1, hm2, hd1, hd2⟩ := hv
  have hy1b : 1 ≤ y := hy1
  have hy2b : y ≤ 9999 := hy2
  have hm1b : 1 ≤ m := hm1
  have hm2b : m ≤ 12 := hm2
  have hd1b : 1 ≤ day := hd1
  have hd2b : day ≤ daysInMonth y m := hd2
  unfold succDate
  split_ifs with hday hmon
  · have hdayb : day < daysInMonth y m := hday
    simp only [validDate, toOrdinal]
    omega
  · have hdayb : ¬ day < daysInMonth y m := hday
    have hmonb : m < 12 := hmon
    have hs := daysBeforeMonth_succ y m (by omega) (by omega)
    have hmb := daysInMonth_bounds y (m + 1)
    simp only [validDate, toOrdinal]
    omega
  · have hdayb : ¬ day < daysInMonth y m := hday
    have hmonb : ¬ m < 12 := hmon
    have hm12 : m = 12 := by omega
    subst hm12
    have h31 : daysInMonth y 12 = 31 := daysInMonth_twelve y
    have hday31 : day = 31 := by omega
    have hyb : y ≤ 9998 := by
      by_contra hcon
      have hy99 : y = 9999 := by omega
      exact hmax (by rw [hy99, hday31])
    have h12 : daysBeforeMonth y 12 = 334 + (if isLeap y then 1 else 0) :=
      daysBeforeMonth_twelve y
    have h0y : daysBeforeMonth (y + 1) 1 = 0 := daysBeforeMonth_one _
    have h0 : daysBeforeMonth y 1 = 0 := daysBeforeMonth_one _
    have hb := daysInMonth_bounds (y + 1) 1
    have hys := daysBeforeYear_succ y (by omega)
    simp only [validDate, toOrdinal]
    by_cases hL : isLeap y
    · rw [if_pos hL] at hys h12; omega
    · rw [if_neg hL] at hys h12; omega

lemma subDays_spec (d : Date) (n : Nat) (hv : validDate d) (h : n < toOrdinal d) :
    validDate (subDays d n) ∧ toOrdinal (subDays d n) + n = toOrdinal d ∧
      (subDays d n).year ≤ d.year := by
  induction n with
  | zero => exact ⟨hv, by simp [subDays], le_refl _⟩
  | succ n ih =>
    obtain ⟨ihv, iho, ihy⟩ := ih (by omega)
    have h2 : 2 ≤ toOrdinal (subDays d n) := by omega
    obtain ⟨pv, po, py⟩ := predDate_spec (subDays d n) ihv h2
    exact ⟨pv, by simp only [subDays]; omega, by simp only [subDays]; omega⟩

lemma maxOrdinal_eq : toOrdinal ⟨9999, 12, 31⟩ = 3652059 := by decide

lemma addDays_spec (d : Date) (n : Nat) (hv : validDate d)
    (h : toOrdinal d + n ≤ 3652059) :
    validDate (addDays d n) ∧ toOrdinal (addDays d n) = toOrdinal d + n := by
  induction n with
  | zero => exact ⟨hv, by simp [addDays]⟩
  | succ n ih =>
    obtain ⟨ihv, iho⟩ := ih (by omega)
    have hmax : addDays d n ≠ ⟨9999, 12, 31⟩ := by
      intro heq
      have hmo : toOrdinal (addDays d n) = 3652059 := by rw [heq]; exact maxOrdinal_eq
      omega
    obtain ⟨sv, so, _⟩ := succDate_spec (addDays d n) ihv hmax
    exact ⟨sv, by simp only [addDays]; omega⟩

lemma subDays_subDays (d : Date) (a b : Nat) :
    subDays (subDays d a) b = subDays d (a + b) := by
  induction b with
  | zero => rfl
  | succ b ih =>
    show predDate (subDays (subDays d a) b) = predDate (subDays d (a + b))
    rw [ih]

lemma dChar_toNat (n : Nat) : (dChar n).toNat = 48 + n % 10 := by
  have h10 : n % 10 < 10 := Nat.mod_lt _ (by norm_num)
  have hall : ∀ k, k < 10 → (Char.ofNat (48 + k)).toNat = 48 + k := by decide
  exact hall _ h10

lemma dChar_isDigit (n : Nat) : (dChar n).isDigit = true := by
  have h10 : n % 10 < 10 := Nat.mod_lt _ (by norm_num)
  have hall : ∀ k, k < 10 → (Char.ofNat (48 + k)).isDigit = true := by decide
  exact hall _ h10

lemma dash_beq_dChar (n : Nat) : ('-' == dChar n) = false := by
  have h10 : n % 10 < 10 := Nat.mod_lt _ (by norm_num)
  have hall : ∀ k, k < 10 → ('-' == Char.ofNat (48 + k)) = false := by decide
  exact hall _ h10

lemma dVal_dChar (n : Nat) : dVal (dChar n) = n % 10 := by
  simp [dVal, dChar_toNat]

lemma parse4_digits (n : Nat) (h : n ≤ 9999) :
    parse4 (dChar (n / 1000)) (dChar (n / 100)) (dChar (n / 10)) (dChar n) = some n := by
  simp only [parse4, dChar_isDigit, Bool.and_self, if_true, dVal_dChar,
    Option.some.injEq]
  omega

lemma parse2_digits (n : Nat) (h : n ≤ 99) :
    parse2 (dChar (n / 10)) (dChar n) = some n := by
  simp only [parse2, dChar_isDigit, Bool.and_self, if_true, dVal_dChar,
    Option.some.injEq]
  omega

lemma dash_ne_dChar (n : Nat) : ¬ ('-' = dChar n) := by
  have h10 : n % 10 < 10 := Nat.mod_lt _ (by norm_num)
  have hall : ∀ k, k < 10 → ¬ ('-' = Char.ofNat (48 + k)) := by decide
  exact hall _ h10

/-! ## Claim theorems -/

/-- C1 counterexample: at the Monday 2024-06-10 the variant
`compute_begin_end_v2` (in `FetchFuelRates/fetch_fuel_rates.py`) returns
`end_date = 2024-06-15`, which is not `effective_date - 2 days = 2024-06-08`;
so the canonical Weekly offset rule does not hold in both source variants. -/
theorem claim_c1_counterexample :
    compute_begin_end_v2 ⟨2024, 6, 10⟩ .Weekly = (⟨2024, 6, 9⟩, ⟨2024, 6, 15⟩) ∧
    subDays ⟨2024, 6, 10⟩ 2 = ⟨2024, 6, 8⟩ ∧
    (compute_begin_end_v2 ⟨2024, 6, 10⟩ .Weekly).2 ≠ subDays ⟨2024, 6, 10⟩ 2 := by
  decide

/-- C1 (amended): for every valid Weekly effective date (away from the
calendar bounds), the root variant `compute_begin_end` returns
`end_date = effective_date - 2 days` and `begin_date = end_date - 6 days`,
and in both variants `end_date - begin_date = 6 days`; but in the variant
`compute_begin_end_v2` the window is `begin_date = effective_date - 1 day`,
`end_date = begin_date + 6 days = effective_date + 5 days`, so
`end_date = effective_date - 2 days` does not hold there. -/
theorem claim_c1_amended (eff : Date) (hv : validDate eff) (h9 : 9 ≤ toOrdinal eff)
    (hub : toOrdinal eff + 5 ≤ 3652059) :
    (compute_begin_end eff .Weekly).2 = subDays eff 2 ∧
    (compute_begin_end eff .Weekly).1 = subDays (subDays eff 2) 6 ∧
    toOrdinal (compute_begin_end eff .Weekly).2 + 2 = toOrdinal eff ∧
    toOrdinal (compute_begin_end eff .Weekly).1 + 6 =
      toOrdinal (compute_begin_end eff .Weekly).2 ∧
    toOrdinal (compute_begin_end_v2 eff .Weekly).1 + 1 = toOrdinal eff ∧
    toOrdinal (compute_begin_end_v2 eff .Weekly).2 =
      toOrdinal (compute_begin_end_v2 eff .Weekly).1 + 6 ∧
    toOrdinal (compute_begin_end_v2 eff .Weekly).2 = toOrdinal eff + 5 ∧
    (compute_begin_end_v2 eff .Weekly).2 ≠ subDays eff 2 := by
  obtain ⟨hv2, ho2, _⟩ := subDays_spec eff 2 hv (by omega)
  obtain ⟨hv8, ho8, _⟩ := subDays_spec eff 8 hv (by omega)
  obtain ⟨hv1, ho1, _⟩ := subDays_spec eff 1 hv (by omega)
  have hcomp : subDays (subDays eff 2) 6 = subDays eff 8 := subDays_subDays eff 2 6
  obtain ⟨hva, hoa⟩ := addDays_spec (subDays eff 1) 6 hv1 (by omega)
  simp only [compute_begin_end, compute_begin_end_v2]
  refine ⟨trivial, trivial, by omega, ?_, by omega, by omega, by omega, ?_⟩
  · rw [hcomp]; omega
  · intro heq
    have hordeq := congrArg toOrdinal heq
    omega

/-- C1 witness for the amended theorem, at the Monday 2024-06-10. -/
theorem claim_c1_witness :
    (validDate (⟨2024, 6, 10⟩ : Date) ∧ 9 ≤ toOrdinal ⟨2024, 6, 10⟩ ∧
      toOrdinal ⟨2024, 6, 10⟩ + 5 ≤ 3652059) ∧
    ((compute_begin_end ⟨2024, 6, 10⟩ .Weekly).2 = subDays ⟨2024, 6, 10⟩ 2 ∧
    (compute_begin_end ⟨2024, 6, 10⟩ .Weekly).1 = subDays (subDays ⟨2024, 6, 10⟩ 2) 6 ∧
    toOrdinal (compute_begin_end ⟨2024, 6, 10⟩ .Weekly).2 + 2 = toOrdinal ⟨2024, 6, 10⟩ ∧
    toOrdinal (compute_begin_end ⟨2024, 6, 10⟩ .Weekly).1 + 6 =
      toOrdinal (compute_begin_end ⟨2024, 6, 10⟩ .Weekly).2 ∧
    toOrdinal (compute_begin_end_v2 ⟨2024, 6, 10⟩ .Weekly).1 + 1 =
      toOrdinal ⟨2024, 6, 10⟩ ∧
    toOrdinal (compute_begin_end_v2 ⟨2024, 6, 10⟩ .Weekly).2 =
      toOrdinal (compute_begin_end_v2 ⟨2024, 6, 10⟩ .Weekly).1 + 6 ∧
    toOrdinal (compute_begin_end_v2 ⟨2024, 6, 10⟩ .Weekly).2 =
      toOrdinal ⟨2024, 6, 10⟩ + 5 ∧
    (compute_begin_end_v2 ⟨2024, 6, 10⟩ .Weekly).2 ≠ subDays ⟨2024, 6, 10⟩ 2) :=
  ⟨⟨by decide, by decide, by decide⟩,
    claim_c1_amended ⟨2024, 6, 10⟩ (by decide) (by decide) (by decide)⟩

/-- C6: for every valid Monthly effective date, both source variants of
`compute_begin_end` agree and return `begin_date` = the first day of the
effective date's month and `end_date` = the last day of that month
(`end_date` is valid and the next calendar day is the 1st of the following
month), with February 29 in leap years: 2024-02-01 yields 2024-02-29. -/
theorem claim_c6 (eff : Date) (hv : validDate eff) :
    compute_begin_end eff .Monthly = compute_begin_end_v2 eff .Monthly ∧
    (compute_begin_end eff .Monthly).1 = ⟨eff.year, eff.month, 1⟩ ∧
    (compute_begin_end eff .Monthly).2 =
      ⟨eff.year, eff.month, daysInMonth eff.year eff.month⟩ ∧
    validDate (compute_begin_end eff .Monthly).1 ∧
    validDate (compute_begin_end eff .Monthly).2 ∧
    dleP (compute_begin_end eff .Monthly).1 (compute_begin_end eff .Monthly).2 ∧
    (succDate (compute_begin_end eff .Monthly).2).day = 1 ∧
    compute_begin_end ⟨2024, 2, 1⟩ .Monthly = (⟨2024, 2, 1⟩, ⟨2024, 2, 29⟩) := by
  obtain ⟨y, m, day⟩ := eff
  obtain ⟨hy1, hy2, hm1, hm2, hd1, hd2⟩ := hv
  have hy1b : 1 ≤ y := hy1
  have hy2b : y ≤ 9999 := hy2
  have hm1b : 1 ≤ m := hm1
  have hm2b : m ≤ 12 := hm2
  have hmb := daysInMonth_bounds y m
  simp only [compute_begin_end, compute_begin_end_v2]
  refine ⟨trivial, trivial, trivial, ?_, ?_, ?_, ?_, by decide⟩
  · simp only [validDate]
    omega
  · simp only [validDate]
    omega
  · apply Or.inl
    simp only [dltP, true_and]
    omega
  · unfold succDate
    split_ifs with hday hmon
    · exact absurd (show daysInMonth y m < daysInMonth y m from hday) (by omega)
    · rfl
    · rfl

/-- C6 witness at the leap February date 2024-02-01. -/
theorem claim_c6_witness :
    validDate (⟨2024, 2, 1⟩ : Date) ∧
    (compute_begin_end ⟨2024, 2, 1⟩ .Monthly = compute_begin_end_v2 ⟨2024, 2, 1⟩ .Monthly ∧
    (compute_begin_end ⟨2024, 2, 1⟩ .Monthly).1 = ⟨2024, 2, 1⟩ ∧
    (compute_begin_end ⟨2024, 2, 1⟩ .Monthly).2 = ⟨2024, 2, daysInMonth 2024 2⟩ ∧
    validDate (compute_begin_end ⟨2024, 2, 1⟩ .Monthly).1 ∧
    validDate (compute_begin_end ⟨2024, 2, 1⟩ .Monthly).2 ∧
    dleP (compute_begin_end ⟨2024, 2, 1⟩ .Monthly).1
      (compute_begin_end ⟨2024, 2, 1⟩ .Monthly).2 ∧
    (succDate (compute_begin_end ⟨2024, 2, 1⟩ .Monthly).2).day = 1 ∧
    compute_begin_end ⟨2024, 2, 1⟩ .Monthly = (⟨2024, 2, 1⟩, ⟨2024, 2, 29⟩)) :=
  ⟨by decide, claim_c6 ⟨2024, 2, 1⟩ (by decide)⟩

/-- The table holds key `k` iff a lookup for `k` finds a row. -/
lemma containsKey_eq_isSome (t : List Row) (k : Date × Span) :
    containsKey t k = (lookupKey t k).isSome := by
  induction t with
  | nil => rfl
  | cons r ts ih =>
    by_cases h : rowKey r = k <;>
      simp [containsKey, lookupKey, List.find?_cons, h, List.any_cons] <;>
      simpa [containsKey, lookupKey] using ih

lemma countKey_pos_iff (t : List Row) (k : Date × Span) :
    containsKey t k = true ↔ 0 < countKey t k := by
  induction t with
  | nil => simp [containsKey, countKey]
  | cons r ts ih =>
    by_cases h : rowKey r = k <;>
      simp [containsKey, countKey, List.any_cons, List.filter_cons, h] <;>
      simpa [containsKey, countKey] using ih

lemma upsertOne_of_containsKey (t : List Row) (r : Row)
    (h : containsKey t (rowKey r) = true) : upsertOne t r = t := by
  simp [upsertOne, h]

lemma containsKey_upsertOne_self (t : List Row) (r : Row) :
    containsKey (upsertOne t r) (rowKey r) = true := by
  unfold upsertOne
  split_ifs with h
  · exact h
  · simp [containsKey, List.any_append, List.any_cons]

lemma containsKey_upsertOne_mono (t : List Row) (r : Row) (k : Date × Span)
    (h : containsKey t k = true) : containsKey (upsertOne t r) k = true := by
  unfold upsertOne
  split_ifs with hc
  · exact h
  · simp only [containsKey, List.any_append, Bool.or_eq_true]
    exact Or.inl h

lemma containsKey_upsert_records_mono (records : List Row) (t : List Row) (k : Date × Span)
    (h : containsKey t k = true) : containsKey (upsert_records t records) k = true := by
  induction records generalizing t with
  | nil => exact h
  | cons r rs ih => exact ih (upsertOne t r) (containsKey_upsertOne_mono t r k h)

lemma containsKey_upsert_records_mem (records : List Row) (t : List Row) (r : Row)
    (h : r ∈ records) : containsKey (upsert_records t records) (rowKey r) = true := by
  induction records generalizing t with
  | nil => cases h
  | cons q rs ih =>
    rcases List.mem_cons.mp h with heq | hmem
    · rw [heq]
      exact containsKey_upsert_records_mono rs (upsertOne t q) (rowKey q)
        (containsKey_upsertOne_self t q)
    · exact ih (upsertOne t q) hmem

lemma upsert_records_noop (records : List Row) (t : List Row)
    (h : ∀ r ∈ records, containsKey t (rowKey r) = true) :
    upsert_records t records = t := by
  induction records with
  | nil => rfl
  | cons r rs ih =>
    show upsert_records (upsertOne t r) rs = t
    rw [upsertOne_of_containsKey t r (h r (List.mem_cons_self r rs))]
    exact ih fun q hq => h q (List.mem_cons_of_mem r hq)

lemma lookupKey_upsertOne (t : List Row) (r : Row) (k : Date × Span) :
    lookupKey (upsertOne t r) k =
      (match lookupKey t k with
       | some r0 => some r0
       | none => if rowKey r = k then some r else none) := by
  by_cases hc : containsKey t (rowKey r) = true
  · rw [upsertOne_of_containsKey t r hc]
    cases hl : lookupKey t k with
    | some r0 => rfl
    | none =>
      by_cases hk : rowKey r = k
      · exfalso
        rw [containsKey_eq_isSome, hk, hl] at hc
        simp at hc
      · simp [hk]
  · have hc2 : containsKey t (rowKey r) = false := by
      revert hc
      cases containsKey t (rowKey r) <;> simp
    simp only [upsertOne, hc2, Bool.false_eq_true, if_false]
    unfold lookupKey
    rw [List.find?_append]
    cases hl : List.find? (fun q => decide (rowKey q = k)) t with
    | some r0 => simp [Option.or]
    | none =>
      by_cases hk : rowKey r = k <;> simp [List.find?, hk, Option.or]

lemma countKey_upsertOne_self (t : List Row) (r : Row) :
    countKey (upsertOne t r) (rowKey r) =
      if countKey t (rowKey r) = 0 then 1 else countKey t (rowKey r) := by
  by_cases hc : containsKey t (rowKey r) = true
  · rw [upsertOne_of_containsKey t r hc]
    have hpos := (countKey_pos_iff t (rowKey r)).mp hc
    rw [if_neg (by omega)]
  · have hc2 : containsKey t (rowKey r) = false := by
      revert hc
      cases containsKey t (rowKey r) <;> simp
    have hz : countKey t (rowKey r) = 0 := by
      by_contra hnz
      have hpos := (countKey_pos_iff t (rowKey r)).mpr (by omega)
      rw [hc2] at hpos
      exact Bool.false_ne_true hpos
    have hz2 : (t.filter fun q => decide (rowKey q = rowKey r)).length = 0 := hz
    simp only [upsertOne, hc2, Bool.false_eq_true, if_false]
    rw [if_pos hz]
    simp only [countKey, List.filter_append, List.length_append]
    simp [List.filter_cons, hz2]

/-- C8: persisting the same record twice leaves the table as after one
upsert; an upsert is a conditional insert (no-op exactly when the key is
present); an upsert never changes the row any key looks up to (it only
fills an absent key); after inserting twice the key holds exactly one row
when the table had none; and `upsert_records` of a whole batch is
idempotent. -/
theorem claim_c8 (t : List Row) (r : Row) (records : List Row) (k : Date × Span) :
    upsertOne (upsertOne t r) r = upsertOne t r ∧
    (upsertOne t r = if containsKey t (rowKey r) then t else t ++ [r]) ∧
    lookupKey (upsertOne t r) k =
      (match lookupKey t k with
       | some r0 => some r0
       | none => if rowKey r = k then some r else none) ∧
    countKey (upsertOne (upsertOne t r) r) (rowKey r) =
      (if countKey t (rowKey r) = 0 then 1 else countKey t (rowKey r)) ∧
    upsert_records (upsert_records t records) records = upsert_records t records := by
  refine ⟨?_, rfl, lookupKey_upsertOne t r k, ?_, ?_⟩
  · rw [upsertOne_of_containsKey (upsertOne t r) r (containsKey_upsertOne_self t r)]
  · rw [upsertOne_of_containsKey (upsertOne t r) r (containsKey_upsertOne_self t r)]
    exact countKey_upsertOne_self t r
  · exact upsert_records_noop records (upsert_records t records)
      (fun q hq => containsKey_upsert_records_mem records t q hq)

lemma not_dltP_self (a : Date) : ¬ dltP a a := by
  obtain ⟨y, m, d⟩ := a
  simp [dltP]

lemma dleP_of_not_dltP (a b : Date) (h : ¬ dltP a b) : dleP b a := by
  obtain ⟨y1, m1, d1⟩ := a
  obtain ⟨y2, m2, d2⟩ := b
  simp only [dltP, dleP, Date.mk.injEq] at h ⊢
  omega

lemma not_dltP_of_dleP (a b : Date) (h : dleP a b) : ¬ dltP b a := by
  obtain ⟨y1, m1, d1⟩ := a
  obtain ⟨y2, m2, d2⟩ := b
  simp only [dltP, dleP, Date.mk.injEq] at h ⊢
  omega

lemma dltP_predDate (d : Date) (hv : validDate d) : dltP (predDate d) d := by
  obtain ⟨y, m, day⟩ := d
  obtain ⟨hy1, hy2, hm1, hm2, hd1, hd2⟩ := hv
  have hy1b : 1 ≤ y := hy1
  have hm1b : 1 ≤ m := hm1
  have hd1b : 1 ≤ day := hd1
  unfold predDate
  split_ifs with h1 h2
  · have h1b : 2 ≤ day := h1
    simp only [dltP, true_and]
    omega
  · have h2b : 2 ≤ m := h2
    simp only [dltP, true_and]
    omega
  · simp only [dltP]
    omega

lemma dltP_succDate (d : Date) : dltP d (succDate d) := by
  obtain ⟨y, m, day⟩ := d
  unfold succDate
  split_ifs with h1 h2 <;> simp only [dltP, true_and] <;> omega

lemma processSeries_none (sp : Span) (thr today : Date) (period : String)
    (rest : List (String × Option Rat)) :
    processSeries sp thr today ((period, none) :: rest) =
      processSeries sp thr today rest := rfl

lemma processSeries_malformed (sp : Span) (thr today : Date) (period : String) (p : Rat)
    (rest : List (String × Option Rat)) (h : parsePeriod sp period = none) :
    processSeries sp thr today ((period, some p) :: rest) = .error ⟨sp, period⟩ := by
  simp only [processSeries, h]

lemma processSeries_skip (sp : Span) (thr today : Date) (period : String) (p : Rat)
    (rest : List (String × Option Rat)) (eff : Date)
    (h : parsePeriod sp period = some eff) (hout : dltP eff thr ∨ dltP today eff) :
    processSeries sp thr today ((period, some p) :: rest) =
      processSeries sp thr today rest := by
  simp only [processSeries, h]
  rw [if_pos hout]

lemma processSeries_keep (sp : Span) (thr today : Date) (period : String) (p : Rat)
    (rest : List (String × Option Rat)) (eff : Date)
    (h : parsePeriod sp period = some eff) (hin : ¬ (dltP eff thr ∨ dltP today eff)) :
    processSeries sp thr today ((period, some p) :: rest) =
      (match processSeries sp thr today rest with
       | .error e => .error e
       | .ok rs => .ok (mkRow eff sp p :: rs)) := by
  simp only [processSeries, h]
  rw [if_neg hin]

/-- Every record that survives the filter lies in the window and carries
its series' span. -/
lemma processSeries_mem (sp : Span) (thr today : Date)
    (raw : List (String × Option Rat)) (rs : List Row)
    (h : processSeries sp thr today raw = .ok rs) :
    ∀ r ∈ rs, dleP thr r.eff_date ∧ dleP r.eff_date today ∧ r.span = sp := by
  induction raw generalizing rs with
  | nil =>
    simp only [processSeries, Except.ok.injEq] at h
    subst h
    intro r hr
    cases hr
  | cons pr rest ih =>
    obtain ⟨period, price⟩ := pr
    cases price with
    | none => exact ih rs h
    | some p =>
      cases hp : parsePeriod sp period with
      | none =>
        rw [processSeries_malformed sp thr today period p rest hp] at h
        cases h
      | some eff =>
        by_cases hio : dltP eff thr ∨ dltP today eff
        · rw [processSeries_skip sp thr today period p rest eff hp hio] at h
          exact ih rs h
        · rw [processSeries_keep sp thr today period p rest eff hp hio] at h
          cases hrest : processSeries sp thr today rest with
          | error e => rw [hrest] at h; cases h
          | ok rs0 =>
            rw [hrest] at h
            simp only [Except.ok.injEq] at h
            subst h
            intro r hr
            rcases List.mem_cons.mp hr with heq | hmem
            · subst heq
              push_neg at hio
              exact ⟨dleP_of_not_dltP eff thr hio.1, dleP_of_not_dltP today eff hio.2,
                rfl⟩
            · exact ih rs0 hrest r hmem

/-- C4: the record filter of `main`'s loop keeps a candidate iff its value
is present and `threshold ≤ effective_date ≤ today`: a null-value record is
dropped; a parsed record is kept exactly when the window test passes; every
record of the output lies in the window (so no discarded record reaches the
sink); and at the boundaries the filter keeps `threshold` and `today`
themselves but discards the day before `threshold` and the day after
`today`. -/
theorem claim_c4 (sp : Span) (thr today : Date) (period : String) (p : Rat)
    (rest raw : List (String × Option Rat)) (eff : Date) (rs : List Row)
    (hp : parsePeriod sp period = some eff)
    (hok : processSeries sp thr today raw = .ok rs)
    (hv : validDate thr) (hto : dleP thr today) :
    processSeries sp thr today ((period, none) :: rest) =
      processSeries sp thr today rest ∧
    processSeries sp thr today ((period, some p) :: rest) =
      (if dltP eff thr ∨ dltP today eff then processSeries sp thr today rest
       else
         match processSeries sp thr today rest with
         | .error e => .error e
         | .ok rs0 => .ok (mkRow eff sp p :: rs0)) ∧
    rs.all (fun r => decide (dleP thr r.eff_date ∧ dleP r.eff_date today)) = true ∧
    ¬ (dltP thr thr ∨ dltP today thr) ∧
    ¬ (dltP today thr ∨ dltP today today) ∧
    (dltP (predDate thr) thr ∨ dltP today (predDate thr)) ∧
    (dltP (succDate today) thr ∨ dltP today (succDate today)) := by
  refine ⟨rfl, ?_, ?_, ?_, ?_, ?_, ?_⟩
  · split_ifs with hio
    · exact processSeries_skip sp thr today period p rest eff hp hio
    · exact processSeries_keep sp thr today period p rest eff hp hio
  · rw [List.all_eq_true]
    intro r hr
    rw [decide_eq_true_eq]
    have hm := processSeries_mem sp thr today raw rs hok r hr
    exact ⟨hm.1, hm.2.1⟩
  · rw [not_or]
    exact ⟨not_dltP_self thr, not_dltP_of_dleP thr today hto⟩
  · rw [not_or]
    exact ⟨not_dltP_of_dleP thr today hto, not_dltP_self today⟩
  · exact Or.inl (dltP_predDate thr hv)
  · exact Or.inr (dltP_succDate today)

/-- C4 witness: span Weekly, threshold 2024-01-08, today 2024-01-15, with a
raw series holding an on-threshold record, one a week earlier, one after
today, and one with a missing price: only the on-threshold record is kept. -/
theorem claim_c4_witness :
    (parsePeriod .Weekly "20240108" = some ⟨2024, 1, 8⟩ ∧
     processSeries .Weekly ⟨2024, 1, 8⟩ ⟨2024, 1, 15⟩
       [("20240108", some 3), ("20240101", some 4), ("20240116", some 5),
        ("20240115", none)] = .ok [mkRow ⟨2024, 1, 8⟩ .Weekly 3] ∧
     validDate (⟨2024, 1, 8⟩ : Date) ∧ dleP ⟨2024, 1, 8⟩ ⟨2024, 1, 15⟩) ∧
    (processSeries .Weekly ⟨2024, 1, 8⟩ ⟨2024, 1, 15⟩ (("20240108", none) :: []) =
      processSeries .Weekly ⟨2024, 1, 8⟩ ⟨2024, 1, 15⟩ [] ∧
    processSeries .Weekly ⟨2024, 1, 8⟩ ⟨2024, 1, 15⟩ (("20240108", some 3) :: []) =
      (if dltP ⟨2024, 1, 8⟩ ⟨2024, 1, 8⟩ ∨ dltP ⟨2024, 1, 15⟩ ⟨2024, 1, 8⟩ then
        processSeries .Weekly ⟨2024, 1, 8⟩ ⟨2024, 1, 15⟩ []
       else
         match processSeries .Weekly ⟨2024, 1, 8⟩ ⟨2024, 1, 15⟩ [] with
         | .error e => .error e
         | .ok rs0 => .ok (mkRow ⟨2024, 1, 8⟩ .Weekly 3 :: rs0)) ∧
    (List.all [mkRow ⟨2024, 1, 8⟩ .Weekly 3] fun r =>
      decide (dleP ⟨2024, 1, 8⟩ r.eff_date ∧ dleP r.eff_date ⟨2024, 1, 15⟩)) = true ∧
    ¬ (dltP ⟨2024, 1, 8⟩ ⟨2024, 1, 8⟩ ∨ dltP ⟨2024, 1, 15⟩ ⟨2024, 1, 8⟩) ∧
    ¬ (dltP ⟨2024, 1, 15⟩ ⟨2024, 1, 8⟩ ∨ dltP ⟨2024, 1, 15⟩ ⟨2024, 1, 15⟩) ∧
    (dltP (predDate ⟨2024, 1, 8⟩) ⟨2024, 1, 8⟩ ∨
      dltP ⟨2024, 1, 15⟩ (predDate ⟨2024, 1, 8⟩)) ∧
    (dltP (succDate ⟨2024, 1, 15⟩) ⟨2024, 1, 8⟩ ∨
      dltP ⟨2024, 1, 15⟩ (succDate ⟨2024, 1, 15⟩))) :=
  ⟨⟨by decide, by decide, by decide, by decide⟩,
    claim_c4 .Weekly ⟨2024, 1, 8⟩ ⟨2024, 1, 15⟩ "20240108" 3 []
      [("20240108", some 3), ("20240101", some 4), ("20240116", some 5),
       ("20240115", none)] ⟨2024, 1, 8⟩ [mkRow ⟨2024, 1, 8⟩ .Weekly 3]
      (by decide) (by decide) (by decide) (by decide)⟩

/-- C3 counterexample: a malformed Weekly period token ("banana") does not
produce a per-record skip: the run aborts with an error even though the
remaining record of the series ("20240610") is perfectly processable on its
own, so the rest of the series is never processed. -/
theorem claim_c3_counterexample :
    mainModel
      (fun sp => match sp with
        | .Weekly => .ok [("banana", some 3), ("20240610", some 4)]
        | .Monthly => .ok [])
      "20240101" false ⟨2024, 12, 31⟩ = .error (.periodErr ⟨.Weekly, "banana"⟩) ∧
    processSeries .Weekly ⟨2024, 1, 1⟩ ⟨2024, 12, 31⟩ [("20240610", some 4)] =
      .ok [mkRow ⟨2024, 6, 10⟩ .Weekly 4] := by
  exact ⟨by decide, by decide⟩

/-- C3 (amended): a record whose period token matches neither accepted
pattern for its span makes `strptime` raise an uncaught `ValueError`: the
record is not skipped, no further record of the series is processed, and
the whole run aborts with that error (nothing is persisted) — there is no
log-and-skip handling for malformed periods. -/
theorem claim_c3_amended (thr today : Date) (period : String) (p : Rat)
    (rest : List (String × Option Rat))
    (fetch : Span → Except HTTPErr (List (String × Option Rat)))
    (start : String) (dry : Bool)
    (h : parsePeriod .Weekly period = none)
    (hs : parseStartDate start = .ok thr)
    (hf : fetch .Weekly = .ok ((period, some p) :: rest)) :
    processSeries .Weekly thr today ((period, some p) :: rest) =
      .error ⟨.Weekly, period⟩ ∧
    mainModel fetch start dry today = .error (.periodErr ⟨.Weekly, period⟩) := by
  have h1 := processSeries_malformed .Weekly thr today period p rest h
  refine ⟨h1, ?_⟩
  simp only [mainModel, collectRun, hs, hf, h1]

/-- C3 witness: the amended abort behaviour at the concrete malformed token
"banana". -/
theorem claim_c3_witness :
    (parsePeriod .Weekly "banana" = none ∧
     parseStartDate "20240101" = .ok ⟨2024, 1, 1⟩ ∧
     cxFetchWeeklyBad .Weekly = .ok [("banana", some 3), ("20240610", some 4)]) ∧
    (processSeries .Weekly ⟨2024, 1, 1⟩ ⟨2024, 12, 31⟩
        [("banana", some 3), ("20240610", some 4)] =
      .error ⟨.Weekly, "banana"⟩ ∧
    mainModel cxFetchWeeklyBad "20240101" true ⟨2024, 12, 31⟩ =
      .error (.periodErr ⟨.Weekly, "banana"⟩)) :=
  ⟨⟨by decide, by decide, by decide⟩,
    claim_c3_amended ⟨2024, 1, 1⟩ ⟨2024, 12, 31⟩ "banana" 3 [("20240610", some 4)]
      cxFetchWeeklyBad "20240101" true (by decide) (by decide) (by decide)⟩

/-- C5: per-series failure isolation in `main`'s fetch loop: when
the Weekly fetch raises an HTTP error and Monthly succeeds, the run still
returns (and, with `dry_run = false`, persists) exactly the Monthly
records, and symmetrically when Monthly fails and Weekly succeeds — the
failed series contributes nothing and the run does not abort. -/
theorem claim_c5 (fetchA fetchB : Span → Except HTTPErr (List (String × Option Rat)))
    (s : String) (thr today : Date) (eA eB : HTTPErr)
    (rawM rawW : List (String × Option Rat)) (rsM rsW : List Row)
    (hs : parseStartDate s = .ok thr)
    (hA1 : fetchA .Weekly = .error eA)
    (hA2 : fetchA .Monthly = .ok rawM)
    (hAp : processSeries .Monthly thr today rawM = .ok rsM)
    (hB1 : fetchB .Weekly = .ok rawW)
    (hBp : processSeries .Weekly thr today rawW = .ok rsW)
    (hB2 : fetchB .Monthly = .error eB) :
    collectRun fetchA thr today = .ok rsM ∧
    collectRun fetchB thr today = .ok rsW ∧
    mainModel fetchA s false today = .ok ⟨none, rsM, true⟩ ∧
    mainModel fetchB s false today = .ok ⟨none, rsW, true⟩ := by
  have hcA : collectRun fetchA thr today = .ok rsM := by
    simp only [collectRun, hA1, hA2, hAp]
  have hcB : collectRun fetchB thr today = .ok rsW := by
    simp only [collectRun, hB1, hBp, hB2]
  refine ⟨hcA, hcB, ?_, ?_⟩
  · simp only [mainModel, hs, hcA, Bool.false_eq_true, if_false]
  · simp only [mainModel, hs, hcB, Bool.false_eq_true, if_false]

/-- C5 witness: Weekly HTTP 500 with a good Monthly series, and Monthly
HTTP 503 with a good Weekly series, threshold 2024-01-01, today
2024-12-31. -/
theorem claim_c5_witness :
    (parseStartDate "20240101" = .ok ⟨2024, 1, 1⟩ ∧
     cxFetchWeeklyFails .Weekly = .error ⟨500⟩ ∧
     cxFetchWeeklyFails .Monthly = .ok [("202406", some 3)] ∧
     processSeries .Monthly ⟨2024, 1, 1⟩ ⟨2024, 12, 31⟩ [("202406", some 3)] =
       .ok [mkRow ⟨2024, 6, 1⟩ .Monthly 3] ∧
     cxFetchMonthlyFails .Weekly = .ok [("20240610", some 4)] ∧
     processSeries .Weekly ⟨2024, 1, 1⟩ ⟨2024, 12, 31⟩ [("20240610", some 4)] =
       .ok [mkRow ⟨2024, 6, 10⟩ .Weekly 4] ∧
     cxFetchMonthlyFails .Monthly = .error ⟨503⟩) ∧
    (collectRun cxFetchWeeklyFails ⟨2024, 1, 1⟩ ⟨2024, 12, 31⟩ =
      .ok [mkRow ⟨2024, 6, 1⟩ .Monthly 3] ∧
    collectRun cxFetchMonthlyFails ⟨2024, 1, 1⟩ ⟨2024, 12, 31⟩ =
      .ok [mkRow ⟨2024, 6, 10⟩ .Weekly 4] ∧
    mainModel cxFetchWeeklyFails "20240101" false ⟨2024, 12, 31⟩ =
      .ok ⟨none, [mkRow ⟨2024, 6, 1⟩ .Monthly 3], true⟩ ∧
    mainModel cxFetchMonthlyFails "20240101" false ⟨2024, 12, 31⟩ =
      .ok ⟨none, [mkRow ⟨2024, 6, 10⟩ .Weekly 4], true⟩) :=
  ⟨⟨by decide, by decide, by decide, by decide, by decide, by decide, by decide⟩,
    claim_c5 cxFetchWeeklyFails cxFetchMonthlyFails "20240101" ⟨2024, 1, 1⟩
      ⟨2024, 12, 31⟩ ⟨500⟩ ⟨503⟩ [("202406", some 3)] [("20240610", some 4)]
      [mkRow ⟨2024, 6, 1⟩ .Monthly 3] [mkRow ⟨2024, 6, 10⟩ .Weekly 4]
      (by decide) (by decide) (by decide) (by decide) (by decide) (by decide)
      (by decide)⟩

/-- C10: with `dry_run = true`, a completed `main` run prints the collected
records, opens no database connection and executes no write — applying the
upsert step to what a dry run writes leaves any table unchanged. -/
theorem claim_c10 (fetch : Span → Except HTTPErr (List (String × Option Rat)))
    (s : String) (thr today : Date) (recs : List Row) (t : List Row)
    (hs : parseStartDate s = .ok thr)
    (hc : collectRun fetch thr today = .ok recs) :
    mainModel fetch s true today = .ok ⟨some recs, [], false⟩ ∧
    upsert_records t [] = t := by
  refine ⟨?_, rfl⟩
  simp only [mainModel, hs, hc, if_true]

/-- C10 witness: a dry run over the Weekly-fails fetch outcome prints the
single Monthly record, writes nothing and opens no connection. -/
theorem claim_c10_witness :
    (parseStartDate "20240101" = .ok ⟨2024, 1, 1⟩ ∧
     collectRun cxFetchWeeklyFails ⟨2024, 1, 1⟩ ⟨2024, 12, 31⟩ =
       .ok [mkRow ⟨2024, 6, 1⟩ .Monthly 3]) ∧
    (mainModel cxFetchWeeklyFails "20240101" true ⟨2024, 12, 31⟩ =
      .ok ⟨some [mkRow ⟨2024, 6, 1⟩ .Monthly 3], [], false⟩ ∧
    upsert_records [mkRow ⟨2024, 1, 8⟩ .Weekly 3] [] =
      [mkRow ⟨2024, 1, 8⟩ .Weekly 3]) :=
  ⟨⟨by decide, by decide⟩,
    claim_c10 cxFetchWeeklyFails "20240101" ⟨2024, 1, 1⟩ ⟨2024, 12, 31⟩
      [mkRow ⟨2024, 6, 1⟩ .Monthly 3] [mkRow ⟨2024, 1, 8⟩ .Weekly 3]
      (by decide) (by decide)⟩

lemma predDate_firstOfMonth (y m : Nat) :
    predDate ⟨y, m, 1⟩ =
      if 2 ≤ m then ⟨y, m - 1, daysInMonth y (m - 1)⟩ else ⟨y - 1, 12, 31⟩ := by
  unfold predDate
  have hd : ¬ 2 ≤ (⟨y, m, 1⟩ : Date).day := fun hcon => by
    have hb : (2 : Nat) ≤ 1 := hcon
    omega
  rw [if_neg hd]

lemma firstLastMonthDate_eq (y m day : Nat) :
    firstLastMonthDate ⟨y, m, day⟩ =
      if 2 ≤ m then ⟨y, m - 1, 1⟩ else ⟨y - 1, 12, 1⟩ := by
  show (⟨(predDate ⟨y, m, 1⟩).year, (predDate ⟨y, m, 1⟩).month, 1⟩ : Date) =
    if 2 ≤ m then ⟨y, m - 1, 1⟩ else ⟨y - 1, 12, 1⟩
  rw [predDate_firstOfMonth y m]
  split_ifs with h <;> rfl

/-- C2 counterexample: on 2024-06-10 the scheduled-mode date computation
returns monthly_start = "2024-05-01", the first day of the PREVIOUS month,
not the first day of the current month (2024-06-01) as the claim states. -/
theorem claim_c2_counterexample :
    (get_prev_week_and_month ⟨2024, 6, 10⟩).2 = isoformat ⟨2024, 5, 1⟩ ∧
    (get_prev_week_and_month ⟨2024, 6, 10⟩).2 ≠
      isoformat (specCurrentMonthFirst ⟨2024, 6, 10⟩) ∧
    scheduledInvocations none ⟨2024, 6, 10⟩ =
      [("2024-06-03", false), ("2024-05-01", false)] := by
  exact ⟨by decide, by decide, by decide⟩

/-- C2 (amended): for every date, scheduled mode computes `weekly_start` as
the ISO form of the Monday 7 days before this week's Monday (a Monday
between 7 and 13 days before today) and `monthly_start` as the ISO form of
the first day of the PREVIOUS month (not the current month, from which it
always differs), and invokes the pipeline once per window with
`dry_run = false`. -/
theorem claim_c2_amended (today : Date) (hv : validDate today)
    (h14 : 14 ≤ toOrdinal today) :
    get_prev_week_and_month today =
      (isoformat (prevMondayDate today), isoformat (firstLastMonthDate today)) ∧
    weekday (prevMondayDate today) = 0 ∧
    toOrdinal (prevMondayDate today) + 7 ≤ toOrdinal today ∧
    toOrdinal today ≤ toOrdinal (prevMondayDate today) + 13 ∧
    validDate (prevMondayDate today) ∧
    firstLastMonthDate today = specPrevMonthFirst today ∧
    firstLastMonthDate today ≠ specCurrentMonthFirst today ∧
    scheduledInvocations none today =
      [(isoformat (prevMondayDate today), false),
       (isoformat (firstLastMonthDate today), false)] := by
  obtain ⟨y, m, day⟩ := today
  obtain ⟨hy1, hy2, hm1, hm2, hd1, hd2⟩ := hv
  have hy1b : 1 ≤ y := hy1
  have hy2b : y ≤ 9999 := hy2
  have hm1b : 1 ≤ m := hm1
  have hm2b : m ≤ 12 := hm2
  have hd1b : 1 ≤ day := hd1
  have hd2b : day ≤ daysInMonth y m := hd2
  have hw6 : weekday ⟨y, m, day⟩ % 7 = weekday ⟨y, m, day⟩ := by
    unfold weekday
    omega
  have hwlt : weekday ⟨y, m, day⟩ ≤ 6 := by
    unfold weekday
    omega
  obtain ⟨hpv, hpo, _⟩ := subDays_spec ⟨y, m, day⟩ (weekday ⟨y, m, day⟩ + 7)
    ⟨hy1, hy2, hm1, hm2, hd1, hd2⟩ (by omega)
  refine ⟨rfl, ?_, by unfold prevMondayDate; omega, by unfold prevMondayDate; omega,
    (by unfold prevMondayDate; exact hpv), ?_, ?_, rfl⟩
  · unfold prevMondayDate
    unfold weekday at hpo ⊢
    omega
  · rw [firstLastMonthDate_eq y m day]
    rfl
  · rw [firstLastMonthDate_eq y m day]
    split_ifs with hcase
    · intro heq
      have hbm : m - 1 = m := congrArg Date.month heq
      omega
    · intro heq
      have hbm : (12 : Nat) = m := congrArg Date.month heq
      omega

/-- C2 witness at today = 2024-06-10 (a Monday): weekly_start is Monday
2024-06-03, monthly_start is 2024-05-01. -/
theorem claim_c2_witness :
    (validDate (⟨2024, 6, 10⟩ : Date) ∧ 14 ≤ toOrdinal ⟨2024, 6, 10⟩) ∧
    (get_prev_week_and_month ⟨2024, 6, 10⟩ =
      (isoformat (prevMondayDate ⟨2024, 6, 10⟩),
       isoformat (firstLastMonthDate ⟨2024, 6, 10⟩)) ∧
    weekday (prevMondayDate ⟨2024, 6, 10⟩) = 0 ∧
    toOrdinal (prevMondayDate ⟨2024, 6, 10⟩) + 7 ≤ toOrdinal ⟨2024, 6, 10⟩ ∧
    toOrdinal ⟨2024, 6, 10⟩ ≤ toOrdinal (prevMondayDate ⟨2024, 6, 10⟩) + 13 ∧
    validDate (prevMondayDate ⟨2024, 6, 10⟩) ∧
    firstLastMonthDate ⟨2024, 6, 10⟩ = specPrevMonthFirst ⟨2024, 6, 10⟩ ∧
    firstLastMonthDate ⟨2024, 6, 10⟩ ≠ specCurrentMonthFirst ⟨2024, 6, 10⟩ ∧
    scheduledInvocations none ⟨2024, 6, 10⟩ =
      [(isoformat (prevMondayDate ⟨2024, 6, 10⟩), false),
       (isoformat (firstLastMonthDate ⟨2024, 6, 10⟩), false)]) :=
  ⟨⟨by decide, by decide⟩, claim_c2_amended ⟨2024, 6, 10⟩ (by decide) (by decide)⟩

/-- C7 counterexample: "2024-01-01" has 8 digits after stripping
separators, yet `main` raises the invalid-start-date `ValueError` for it,
because the code tests the raw string length (10 here), not the stripped
digit count. -/
theorem claim_c7_counterexample :
    digitCount "2024-01-01" = 8 ∧
    parseStartDate "2024-01-01" = .error .invalidStartDate := by
  exact ⟨by decide, by decide⟩

/-- C7 (amended): `main` raises the fatal invalid-start-date error exactly
when the raw character length of the start token is neither 6 nor 8 — the
error is raised before any fetch (the run's outcome is the same for any
two fetch behaviours); a 6- or 8-character token never raises it; and a
successfully parsed 6-character token yields a threshold normalized to day
1 of its month. -/
theorem claim_c7_amended (s6 s8 sBad : String) (d6 : Date)
    (fetchA fetchB : Span → Except HTTPErr (List (String × Option Rat)))
    (dry : Bool) (today : Date)
    (h6 : s6.length = 6) (h8 : s8.length = 8)
    (hbad : sBad.length ≠ 6 ∧ sBad.length ≠ 8)
    (hok6 : parseStartDate s6 = .ok d6) :
    parseStartDate sBad = .error .invalidStartDate ∧
    mainModel fetchA sBad dry today = .error (.startErr .invalidStartDate) ∧
    mainModel fetchA sBad dry today = mainModel fetchB sBad dry today ∧
    parseStartDate s6 ≠ .error .invalidStartDate ∧
    parseStartDate s8 ≠ .error .invalidStartDate ∧
    d6.day = 1 := by
  have hp : parseStartDate sBad = .error .invalidStartDate := by
    unfold parseStartDate
    rw [if_neg hbad.2, if_neg hbad.1]
  have hm : ∀ f : Span → Except HTTPErr (List (String × Option Rat)),
      mainModel f sBad dry today = .error (.startErr .invalidStartDate) := by
    intro f
    simp only [mainModel, hp]
  have h6ne : parseStartDate s6 ≠ .error .invalidStartDate := by
    unfold parseStartDate
    rw [if_neg (by omega), if_pos h6]
    cases strpYm s6 <;> simp
  have h8ne : parseStartDate s8 ≠ .error .invalidStartDate := by
    unfold parseStartDate
    rw [if_pos h8]
    cases strpYmd s8 <;> simp
  have hday : d6.day = 1 := by
    unfold parseStartDate at hok6
    rw [if_neg (by omega), if_pos h6] at hok6
    cases hsm : strpYm s6 with
    | none => rw [hsm] at hok6; cases hok6
    | some d0 =>
      rw [hsm] at hok6
      simp only [Except.ok.injEq] at hok6
      rw [← hok6]
  exact ⟨hp, hm fetchA, by rw [hm fetchA, hm fetchB], h6ne, h8ne, hday⟩

/-- C7 witness: tokens "202401" (6 chars), "20240108" (8 chars) and
"2024-01-01" (10 chars), with two different fetch behaviours. -/
theorem claim_c7_witness :
    ((("202401" : String).length = 6 ∧ ("20240108" : String).length = 8 ∧
      (("2024-01-01" : String).length ≠ 6 ∧ ("2024-01-01" : String).length ≠ 8) ∧
      parseStartDate "202401" = .ok ⟨2024, 1, 1⟩)) ∧
    (parseStartDate "2024-01-01" = .error .invalidStartDate ∧
    mainModel cxFetchWeeklyFails "2024-01-01" false ⟨2024, 12, 31⟩ =
      .error (.startErr .invalidStartDate) ∧
    mainModel cxFetchWeeklyFails "2024-01-01" false ⟨2024, 12, 31⟩ =
      mainModel cxFetchMonthlyFails "2024-01-01" false ⟨2024, 12, 31⟩ ∧
    parseStartDate "202401" ≠ .error .invalidStartDate ∧
    parseStartDate "20240108" ≠ .error .invalidStartDate ∧
    (⟨2024, 1, 1⟩ : Date).day = 1) :=
  ⟨⟨by decide, by decide, ⟨by decide, by decide⟩, by decide⟩,
    claim_c7_amended "202401" "20240108" "2024-01-01" ⟨2024, 1, 1⟩
      cxFetchWeeklyFails cxFetchMonthlyFails false ⟨2024, 12, 31⟩
      (by decide) (by decide) ⟨by decide, by decide⟩ (by decide)⟩

lemma strpYmd_format (y m day : Nat) (hy : y ≤ 9999) (hm : m ≤ 99) (hd : day ≤ 99)
    (hv : validDate ⟨y, m, day⟩) :
    strpYmd ⟨fourDigits y ++ twoDigits m ++ twoDigits day⟩ = some ⟨y, m, day⟩ := by
  simp only [strpYmd, fourDigits, twoDigits, List.cons_append, List.nil_append]
  rw [parse4_digits y hy, parse2_digits m hm, parse2_digits day hd]
  simp [mkValidDate, hv]

lemma strpYm_format (y m : Nat) (hy : y ≤ 9999) (hm : m ≤ 99)
    (hv : validDate ⟨y, m, 1⟩) :
    strpYm ⟨fourDigits y ++ twoDigits m⟩ = some ⟨y, m, 1⟩ := by
  simp only [strpYm, fourDigits, twoDigits, List.cons_append, List.nil_append]
  rw [parse4_digits y hy, parse2_digits m hm]
  simp [mkValidDate, hv]

lemma strpYmdH_format (y m day : Nat) (hy : y ≤ 9999) (hm : m ≤ 99) (hd : day ≤ 99)
    (hv : validDate ⟨y, m, day⟩) :
    strpYmdH ⟨fourDigits y ++ ['-'] ++ twoDigits m ++ ['-'] ++ twoDigits day⟩ =
      some ⟨y, m, day⟩ := by
  simp only [strpYmdH, fourDigits, twoDigits, List.cons_append, List.nil_append]
  rw [if_pos ⟨trivial, trivial⟩]
  rw [parse4_digits y hy, parse2_digits m hm, parse2_digits day hd]
  simp [mkValidDate, hv]

lemma strpYmH_format (y m : Nat) (hy : y ≤ 9999) (hm : m ≤ 99)
    (hv : validDate ⟨y, m, 1⟩) :
    strpYmH ⟨fourDigits y ++ ['-'] ++ twoDigits m⟩ = some ⟨y, m, 1⟩ := by
  simp only [strpYmH, fourDigits, twoDigits, List.cons_append, List.nil_append]
  rw [if_pos trivial]
  rw [parse4_digits y hy, parse2_digits m hm]
  simp [mkValidDate, hv]

lemma formatCompactDay_noDash (d : Date) :
    (formatCompactDay d).data.contains '-' = false := by
  simp [formatCompactDay, fourDigits, twoDigits, List.contains, dash_ne_dChar]

lemma formatCompactMonth_noDash (d : Date) :
    (formatCompactMonth d).data.contains '-' = false := by
  simp [formatCompactMonth, fourDigits, twoDigits, List.contains, dash_ne_dChar]

lemma formatHyphenDay_dash (d : Date) :
    (formatHyphenDay d).data.contains '-' = true := by
  simp [formatHyphenDay, fourDigits, twoDigits, List.contains]

lemma formatHyphenMonth_dash (d : Date) :
    (formatHyphenMonth d).data.contains '-' = true := by
  simp [formatHyphenMonth, fourDigits, twoDigits, List.contains]

lemma parsePeriod_weekly_compact (d : Date) (hv : validDate d) :
    parsePeriod .Weekly (formatCompactDay d) = some d := by
  obtain ⟨y, m, day⟩ := d
  obtain ⟨hy1, hy2, hm1, hm2, hd1, hd2⟩ := hv
  have hy2b : y ≤ 9999 := hy2
  have hm2b : m ≤ 12 := hm2
  have hd2b : day ≤ daysInMonth y m := hd2
  have hdim := daysInMonth_bounds y m
  unfold parsePeriod
  rw [formatCompactDay_noDash ⟨y, m, day⟩]
  simp only [Bool.false_eq_true, if_false]
  exact strpYmd_format y m day hy2b (by omega) (by omega)
    ⟨hy1, hy2, hm1, hm2, hd1, hd2⟩

lemma parsePeriod_weekly_hyphen (d : Date) (hv : validDate d) :
    parsePeriod .Weekly (formatHyphenDay d) = some d := by
  obtain ⟨y, m, day⟩ := d
  obtain ⟨hy1, hy2, hm1, hm2, hd1, hd2⟩ := hv
  have hy2b : y ≤ 9999 := hy2
  have hm2b : m ≤ 12 := hm2
  have hd2b : day ≤ daysInMonth y m := hd2
  have hdim := daysInMonth_bounds y m
  unfold parsePeriod
  rw [formatHyphenDay_dash ⟨y, m, day⟩]
  simp only [if_true]
  exact strpYmdH_format y m day hy2b (by omega) (by omega)
    ⟨hy1, hy2, hm1, hm2, hd1, hd2⟩

lemma parsePeriod_monthly_compact (d : Date) (hv : validDate d) :
    parsePeriod .Monthly (formatCompactMonth d) = some ⟨d.year, d.month, 1⟩ := by
  obtain ⟨y, m, day⟩ := d
  obtain ⟨hy1, hy2, hm1, hm2, hd1, hd2⟩ := hv
  have hy2b : y ≤ 9999 := hy2
  have hm2b : m ≤ 12 := hm2
  have hdim := daysInMonth_bounds y m
  unfold parsePeriod
  rw [formatCompactMonth_noDash ⟨y, m, day⟩]
  simp only [Bool.false_eq_true, if_false]
  exact strpYm_format y m hy2b (by omega)
    ⟨hy1, hy2, hm1, hm2, le_refl 1, show (1 : Nat) ≤ daysInMonth y m from by omega⟩

lemma parsePeriod_monthly_hyphen (d : Date) (hv : validDate d) :
    parsePeriod .Monthly (formatHyphenMonth d) = some ⟨d.year, d.month, 1⟩ := by
  obtain ⟨y, m, day⟩ := d
  obtain ⟨hy1, hy2, hm1, hm2, hd1, hd2⟩ := hv
  have hy2b : y ≤ 9999 := hy2
  have hm2b : m ≤ 12 := hm2
  have hdim := daysInMonth_bounds y m
  unfold parsePeriod
  rw [formatHyphenMonth_dash ⟨y, m, day⟩]
  simp only [if_true]
  exact strpYmH_format y m hy2b (by omega)
    ⟨hy1, hy2, hm1, hm2, le_refl 1, show (1 : Nat) ≤ daysInMonth y m from by omega⟩

/-- C9: for every valid date and each span, the period parser maps the
compact encoding (`YYYYMMDD` Weekly, `YYYYMM` Monthly) and the hyphenated
encoding (`YYYY-MM-DD` Weekly, `YYYY-MM` Monthly) of that date to the same
effective date, with a Monthly token (no day component) normalized to the
first day of its month. -/
theorem claim_c9 (d : Date) (hv : validDate d) :
    parsePeriod .Weekly (formatCompactDay d) = some d ∧
    parsePeriod .Weekly (formatHyphenDay d) = some d ∧
    parsePeriod .Monthly (formatCompactMonth d) = some ⟨d.year, d.month, 1⟩ ∧
    parsePeriod .Monthly (formatHyphenMonth d) = some ⟨d.year, d.month, 1⟩ :=
  ⟨parsePeriod_weekly_compact d hv, parsePeriod_weekly_hyphen d hv,
   parsePeriod_monthly_compact d hv, parsePeriod_monthly_hyphen d hv⟩

/-- C9 witness at 2024-06-10: "20240610" and "2024-06-10" parse to the same
Weekly effective date; "202406" and "2024-06" parse to 2024-06-01. -/
theorem claim_c9_witness :
    validDate (⟨2024, 6, 10⟩ : Date) ∧
    (parsePeriod .Weekly (formatCompactDay ⟨2024, 6, 10⟩) = some ⟨2024, 6, 10⟩ ∧
    parsePeriod .Weekly (formatHyphenDay ⟨2024, 6, 10⟩) = some ⟨2024, 6, 10⟩ ∧
    parsePeriod .Monthly (formatCompactMonth ⟨2024, 6, 10⟩) = some ⟨2024, 6, 1⟩ ∧
    parsePeriod .Monthly (formatHyphenMonth ⟨2024, 6, 10⟩) = some ⟨2024, 6, 1⟩) :=
  ⟨by decide, claim_c9 ⟨2024, 6, 10⟩ (by decide)⟩

end EIA
